import Mathlib

/-!
Verification of the `Classifier` data model and its textual rendering
(`src/plugin/src/model/classifier.rs`) from the typst-plum repository.

Shallow embedding conventions:
* `Attribute`, `Operation` and `Meta` are external collaborators whose only
  interface used here is their own textual rendering; they are modelled as the
  `String` each one renders to.
* The `meta` field is a `BTreeMap<&str, Meta>` in the source; it is modelled as
  an association list `List (String × String)` whose B-tree invariant
  (strictly ascending keys in lexicographic order) is carried as a hypothesis
  where a claim needs it.
* `write!` targets a `fmt::Formatter` backed by a `String`, whose `write_str`
  never fails; the fallible plumbing is modelled by `Classifier.fmtResult`
  below and related to the pure `Classifier.render`.
* Each `write…` helper below embeds one `write!` group of
  `<Classifier as fmt::Display>::fmt`, threading the output buffer explicitly.
-/

namespace Plum

/-- Supported kinds of classifiers (`ClassifierKind` in the source):
a closed enumeration of five variants. -/
inductive ClassifierKind where
  | Class
  | DataType
  | Enumeration
  | Interface
  | Primitive
deriving DecidableEq, Repr

/-- `ClassifierKind::kind`: the fixed keyword for each variant. -/
def ClassifierKind.kind : ClassifierKind → String
  | .Class => "class"
  | .DataType => "dataType"
  | .Enumeration => "enumeration"
  | .Interface => "interface"
  | .Primitive => "primitive"

/-- The `Classifier` struct from the source.  `meta` maps annotation names to
the rendering of the corresponding `Meta` value; `attributes` and `operations`
hold the self-contained renderings of the opaque member collaborators. -/
structure Classifier where
  meta : List (String × String)
  is_abstract : Bool
  is_final : Bool
  kind : ClassifierKind
  name : String
  id : Option String
  stereotypes : List String
  attributes : List String
  operations : List String
deriving DecidableEq, Repr

/-- The loop `for x in rest { write!(f, ", {}", x)?; }`: append each element
prefixed by a comma-space to the buffer accumulated so far. -/
def writeCommaSep (f : String) (xs : List String) : String :=
  xs.foldl (fun f y => f ++ ", " ++ y) f

/-- The loop writing one member per line: `write!(f, "\n  {}", m)?;`. -/
def writeMemberLines (f : String) (xs : List String) : String :=
  xs.foldl (fun f m => f ++ "\n  " ++ m) f

/-- The annotation-line paragraph of `fmt`: `let mut meta = self.meta.values();
if let Some(x) = meta.next() { … }`. -/
def writeMetaLine (c : Classifier) (f : String) : String :=
  match c.meta.map Prod.snd with
  | [] => f
  | x :: xs => writeCommaSep (f ++ "#[" ++ x) xs ++ "]\n"

/-- The two modifier `if`s of `fmt`. -/
def writeModifiers (c : Classifier) (f : String) : String :=
  let f := if c.is_abstract && !(c.kind == ClassifierKind.Interface) then
      f ++ "abstract "
    else f
  if c.is_final then f ++ "final " else f

/-- The stereotype paragraph of `fmt`: `let mut stereotypes = …;
if let Some(x) = stereotypes.next() { … }`. -/
def writeStereotypes (c : Classifier) (f : String) : String :=
  match c.stereotypes with
  | [] => f
  | x :: xs => writeCommaSep (f ++ "«" ++ x) xs ++ "» "

/-- `write!(f, "{} {}", self.kind, self.name)?;`. -/
def writeHeader (c : Classifier) (f : String) : String :=
  f ++ c.kind.kind ++ " " ++ c.name

/-- `if let Some(id) = self.id { write!(f, " as {}", id)?; }`. -/
def writeId (c : Classifier) (f : String) : String :=
  match c.id with
  | some id => f ++ " as " ++ id
  | none => f

/-- The member-block paragraph of `fmt`. -/
def writeBlock (c : Classifier) (f : String) : String :=
  if !c.attributes.isEmpty || !c.operations.isEmpty then
    let f := f ++ " \x7b"
    let f := writeMemberLines f c.attributes
    let f := writeMemberLines f c.operations
    f ++ "\n\x7d"
  else f

/-- `<Classifier as fmt::Display>::fmt`, as the composition of its paragraphs,
starting from an empty output buffer. -/
def Classifier.render (c : Classifier) : String :=
  writeBlock c (writeId c (writeHeader c (writeStereotypes c
    (writeModifiers c (writeMetaLine c "")))))

/-! ### Spec-side vocabulary

The following definitions transcribe the wording of the rendering algorithm in
§4.2 of the specification, to be compared with the source embedding above. -/

/-- Comma-space separated join (the spec's `k1, k2, …`). -/
def sepByCommaSpace : List String → String
  | [] => ""
  | [x] => x
  | x :: xs => x ++ ", " ++ sepByCommaSpace xs

/-- Spec §4.2 step 1: the annotation line `#[k1, k2, …]` plus line break for a
non-empty `meta`, nothing for an empty one.  The values are taken in the order
the map lists them (ascending key order, by the B-tree invariant). -/
def specMetaLine (meta : List (String × String)) : String :=
  if meta = [] then "" else "#[" ++ sepByCommaSpace (meta.map Prod.snd) ++ "]\n"

/-- Spec §4.2 step 2: `abstract ` when abstract and not an interface, then
`final ` when final. -/
def specModifiers (isAb isFin : Bool) (k : ClassifierKind) : String :=
  (if isAb = true ∧ k ≠ ClassifierKind.Interface then "abstract " else "") ++
    (if isFin = true then "final " else "")

/-- Spec §4.2 step 3: `«s1, s2, …» ` for a non-empty stereotype list, nothing
for an empty one. -/
def specStereotypes (ss : List String) : String :=
  if ss = [] then "" else "«" ++ sepByCommaSpace ss ++ "» "

/-- Spec §4.2 step 4, second half: ` as <id>` when present, nothing otherwise. -/
def specId : Option String → String
  | some i => " as " ++ i
  | none => ""

/-- One line per member: a line break, two-space indentation, the member's own
rendering. -/
def memberLines : List String → String
  | [] => ""
  | m :: ms => "\n  " ++ m ++ memberLines ms

/-- Spec §4.2 step 5: no braces when both member lists are empty; otherwise
` {`, the attribute lines, the operation lines, a line break and `}`. -/
def specMemberBlock (attrs ops : List String) : String :=
  if attrs = [] ∧ ops = [] then ""
  else " \x7b" ++ memberLines attrs ++ memberLines ops ++ "\n\x7d"

/-! ### Relating the source paragraphs to the spec vocabulary -/

theorem sepByCommaSpace_cons_append (a b : String) (l : List String) :
    sepByCommaSpace ((a ++ b) :: l) = a ++ sepByCommaSpace (b :: l) := by
  cases l with
  | nil => rfl
  | cons y ys => simp [sepByCommaSpace, String.append_assoc]

theorem writeCommaSep_eq (x : String) (xs : List String) :
    writeCommaSep x xs = sepByCommaSpace (x :: xs) := by
  induction xs generalizing x with
  | nil => rfl
  | cons y ys ih =>
      show writeCommaSep (x ++ ", " ++ y) ys = _
      rw [ih, sepByCommaSpace_cons_append]
      rfl

theorem writeMemberLines_eq (f : String) (xs : List String) :
    writeMemberLines f xs = f ++ memberLines xs := by
  induction xs generalizing f with
  | nil => simp [writeMemberLines, memberLines]
  | cons m ms ih =>
      show writeMemberLines (f ++ "\n  " ++ m) ms = _
      rw [ih]
      simp [memberLines, String.append_assoc]

theorem writeMetaLine_eq (c : Classifier) (f : String) :
    writeMetaLine c f = f ++ specMetaLine c.meta := by
  cases h : c.meta with
  | nil => simp [writeMetaLine, specMetaLine, h]
  | cons p ps =>
      simp only [writeMetaLine, specMetaLine, h, List.map_cons]
      rw [writeCommaSep_eq, sepByCommaSpace_cons_append]
      simp [String.append_assoc]

theorem writeModifiers_eq (c : Classifier) (f : String) :
    writeModifiers c f = f ++ specModifiers c.is_abstract c.is_final c.kind := by
  by_cases hk : c.kind = ClassifierKind.Interface <;>
    cases hab : c.is_abstract <;> cases hfin : c.is_final <;>
      simp [writeModifiers, specModifiers, hk, hab, hfin, String.append_assoc]

theorem writeStereotypes_eq (c : Classifier) (f : String) :
    writeStereotypes c f = f ++ specStereotypes c.stereotypes := by
  cases h : c.stereotypes with
  | nil => simp [writeStereotypes, specStereotypes, h]
  | cons x xs =>
      simp only [writeStereotypes, specStereotypes, h]
      rw [writeCommaSep_eq, sepByCommaSpace_cons_append]
      simp [String.append_assoc]

theorem writeId_eq (c : Classifier) (f : String) :
    writeId c f = f ++ specId c.id := by
  cases h : c.id <;> simp [writeId, specId, h, String.append_assoc]

theorem writeBlock_eq (c : Classifier) (f : String) :
    writeBlock c f = f ++ specMemberBlock c.attributes c.operations := by
  cases ha : c.attributes <;> cases ho : c.operations <;>
    simp [writeBlock, specMemberBlock, ha, ho, writeMemberLines_eq,
      memberLines, String.append_assoc]

/-- The rendering decomposes into the five steps of spec §4.2, in order. -/
theorem render_decomp (c : Classifier) :
    c.render = specMetaLine c.meta ++
      (specModifiers c.is_abstract c.is_final c.kind ++
        (specStereotypes c.stereotypes ++
          ((c.kind.kind ++ " " ++ c.name) ++
            (specId c.id ++ specMemberBlock c.attributes c.operations)))) := by
  rw [Classifier.render, writeBlock_eq, writeId_eq, writeHeader, writeStereotypes_eq,
    writeModifiers_eq, writeMetaLine_eq]
  simp [String.append_assoc]

/-! ### Substring containment, used to state "the output contains the token …" -/

/-- `needle` is an initial segment of `hay` (on character lists). -/
def prefixChars : List Char → List Char → Bool
  | [], _ => true
  | _ :: _, [] => false
  | a :: as, b :: bs => a == b && prefixChars as bs

/-- `needle` occurs contiguously somewhere in `hay`. -/
def containsChars (needle : List Char) : List Char → Bool
  | [] => needle.isEmpty
  | b :: bs => prefixChars needle (b :: bs) || containsChars needle bs

/-- `hay` contains `needle` as a contiguous substring. -/
def containsTok (hay needle : String) : Bool :=
  containsChars needle.data hay.data

theorem prefixChars_append (n b : List Char) : prefixChars n (n ++ b) = true := by
  induction n with
  | nil => rfl
  | cons a as ih => simp [prefixChars, ih]

theorem containsChars_middle (a n b : List Char) :
    containsChars n (a ++ (n ++ b)) = true := by
  induction a with
  | nil =>
      cases n with
      | nil =>
          cases b with
          | nil => rfl
          | cons y ys => simp [containsChars, prefixChars]
      | cons x xs =>
          have hp := prefixChars_append (x :: xs) b
          simp only [List.cons_append] at hp
          simp [containsChars, hp]
  | cons x xs ih => simp [containsChars, ih]

/-- Strict lexicographic order on character lists: the model of the byte-wise
`Ord` on `&str` that orders the keys of the source's `BTreeMap`. -/
def charsLt : List Char → List Char → Bool
  | [], [] => false
  | [], _ :: _ => true
  | _ :: _, [] => false
  | a :: as, b :: bs => a < b || (a == b && charsLt as bs)

/-- The B-tree invariant of the `meta` map: keys strictly ascending. -/
abbrev MetaSorted (meta : List (String × String)) : Prop :=
  meta.Pairwise (fun a b => charsLt a.1.data b.1.data = true)

/-! ### The fallible formatter plumbing

`fmt` returns `fmt::Result` and propagates each `write!` with `?`; the
formatter used by `to_string` writes into a `String` and never fails. -/

/-- `write!` into a `String`-backed formatter: always succeeds. -/
def writeStr (f s : String) : Except Unit String := .ok (f ++ s)

/-- The comma-separated loop, with the `?`-propagation modelled in `Except`. -/
def writeCommaSepM (f : String) (xs : List String) : Except Unit String :=
  xs.foldlM (fun f y => writeStr f (", " ++ y)) f

/-- The member-line loop, with the `?`-propagation modelled in `Except`. -/
def writeMemberLinesM (f : String) (xs : List String) : Except Unit String :=
  xs.foldlM (fun f m => writeStr f ("\n  " ++ m)) f

/-- `<Classifier as fmt::Display>::fmt` with its `fmt::Result` plumbing. -/
def Classifier.fmtResult (c : Classifier) : Except Unit String := do
  let f := ""
  let f ← match c.meta.map Prod.snd with
    | [] => pure f
    | x :: xs => do
        let f ← writeStr f ("#[" ++ x)
        let f ← writeCommaSepM f xs
        writeStr f "]\n"
  let f ← if c.is_abstract && !(c.kind == ClassifierKind.Interface) then
      writeStr f "abstract "
    else pure f
  let f ← if c.is_final then writeStr f "final " else pure f
  let f ← match c.stereotypes with
    | [] => pure f
    | x :: xs => do
        let f ← writeStr f ("«" ++ x)
        let f ← writeCommaSepM f xs
        writeStr f "» "
  let f ← writeStr f (c.kind.kind ++ " " ++ c.name)
  let f ← match c.id with
    | some id => writeStr f (" as " ++ id)
    | none => pure f
  if !c.attributes.isEmpty || !c.operations.isEmpty then
    let f ← writeStr f " \x7b"
    let f ← writeMemberLinesM f c.attributes
    let f ← writeMemberLinesM f c.operations
    writeStr f "\n\x7d"
  else
    pure f

theorem writeCommaSepM_eq (f : String) (xs : List String) :
    writeCommaSepM f xs = .ok (writeCommaSep f xs) := by
  induction xs generalizing f with
  | nil => rfl
  | cons y ys ih =>
      have h := ih (f ++ (", " ++ y))
      simp only [writeCommaSepM, writeCommaSep, writeStr, String.append_assoc] at h
      simp only [writeCommaSepM, writeCommaSep, writeStr, List.foldlM_cons, List.foldl_cons,
        Bind.bind, Except.bind, String.append_assoc]
      exact h

theorem writeMemberLinesM_eq (f : String) (xs : List String) :
    writeMemberLinesM f xs = .ok (writeMemberLines f xs) := by
  induction xs generalizing f with
  | nil => rfl
  | cons m ms ih =>
      have h := ih (f ++ ("\n  " ++ m))
      simp only [writeMemberLinesM, writeMemberLines, writeStr, String.append_assoc] at h
      simp only [writeMemberLinesM, writeMemberLines, writeStr, List.foldlM_cons, List.foldl_cons,
        Bind.bind, Except.bind, String.append_assoc]
      exact h

/-- The fallible formatter run always succeeds and produces exactly the pure
rendering. -/
theorem Classifier.fmtResult_eq (c : Classifier) : c.fmtResult = .ok c.render := by
  obtain ⟨meta, ab, fin, kind, name, id, st, attrs, ops⟩ := c
  cases hm : meta.map Prod.snd <;>
  cases hab : ab && !(kind == ClassifierKind.Interface) <;>
  cases fin <;>
  cases st <;>
  cases id <;>
  cases hb : !attrs.isEmpty || !ops.isEmpty <;>
    simp [Classifier.fmtResult, Classifier.render, writeMetaLine, writeModifiers,
      writeStereotypes, writeHeader, writeId, writeBlock, hm, hab, hb,
      writeCommaSepM_eq, writeMemberLinesM_eq, writeStr, Bind.bind, Except.bind,
      Pure.pure, Except.pure, String.append_assoc]
  all_goals simp [← String.append_assoc]

/-! ### The structured (kebab-case) encoding

Modelled from the spec: the generic data-interchange layer and the
derive-generated encoder/decoder for `Classifier` and `ClassifierKind` are not
part of the sources under verification (only the derive attributes are), so the
structured encoding of §6 is modelled from the spec's words: the kind field
uses kebab-case tokens, `abstract`/`final` are omitted when false, `id` is
omitted when absent, and empty sequence/map fields are omitted.  The spec
describes `meta` as an ordinary field of the classifier, so it is encoded under
its own key here (the source's field flattening is not modelled). -/

/-- A value of the structured interchange format, as far as a `Classifier`
needs: strings, booleans, string sequences and string-to-string maps. -/
inductive EValue where
  | vStr : String → EValue
  | vBool : Bool → EValue
  | vList : List String → EValue
  | vMap : List (String × String) → EValue
deriving DecidableEq, Repr

/-- Modelled from the spec: the kebab-case serialization token of each
`ClassifierKind` variant (distinct from the rendering keywords). -/
def ClassifierKind.kebab : ClassifierKind → String
  | .Class => "class"
  | .DataType => "data-type"
  | .Enumeration => "enumeration"
  | .Interface => "interface"
  | .Primitive => "primitive"

/-- Modelled from the spec: decoding a kebab-case token back to a
`ClassifierKind`. -/
def ClassifierKind.ofKebab (s : String) : Option ClassifierKind :=
  if s = "class" then some .Class
  else if s = "data-type" then some .DataType
  else if s = "enumeration" then some .Enumeration
  else if s = "interface" then some .Interface
  else if s = "primitive" then some .Primitive
  else none

/-- Modelled from the spec: the structured encoding of a `Classifier`, as the
map from field name to encoded value; `none` means the field is omitted. -/
def Classifier.encodeField (c : Classifier) : String → Option EValue := fun k =>
  if k = "abstract" then (if c.is_abstract then some (.vBool true) else none)
  else if k = "final" then (if c.is_final then some (.vBool true) else none)
  else if k = "kind" then some (.vStr c.kind.kebab)
  else if k = "name" then some (.vStr c.name)
  else if k = "id" then c.id.map .vStr
  else if k = "meta" then (if c.meta = [] then none else some (.vMap c.meta))
  else if k = "stereotypes" then
    (if c.stereotypes = [] then none else some (.vList c.stereotypes))
  else if k = "attributes" then
    (if c.attributes = [] then none else some (.vList c.attributes))
  else if k = "operations" then
    (if c.operations = [] then none else some (.vList c.operations))
  else none

/-- Modelled from the spec: decoding a classifier from a structured field map.
`kind` and `name` are required; omitted booleans default to false, an omitted
`id` to absent, omitted sequence/map fields to empty. -/
def decodeClassifier (get : String → Option EValue) : Option Classifier := do
  let kindTok ← match get "kind" with | some (.vStr s) => some s | _ => none
  let kind ← ClassifierKind.ofKebab kindTok
  let name ← match get "name" with | some (.vStr s) => some s | _ => none
  let isAb ← match get "abstract" with
    | some (.vBool b) => some b | none => some false | _ => none
  let isFin ← match get "final" with
    | some (.vBool b) => some b | none => some false | _ => none
  let id ← match get "id" with
    | some (.vStr s) => some (some s) | none => some none | _ => none
  let meta ← match get "meta" with
    | some (.vMap m) => some m | none => some [] | _ => none
  let st ← match get "stereotypes" with
    | some (.vList l) => some l | none => some [] | _ => none
  let attrs ← match get "attributes" with
    | some (.vList l) => some l | none => some [] | _ => none
  let ops ← match get "operations" with
    | some (.vList l) => some l | none => some [] | _ => none
  pure ⟨meta, isAb, isFin, kind, name, id, st, attrs, ops⟩

theorem ofKebab_kebab (k : ClassifierKind) :
    ClassifierKind.ofKebab k.kebab = some k := by
  cases k <;> rfl

/-! ### The claims -/

/-- C1, counterexample to the claim as stated: the classifier with
kind = Interface, is_abstract = true and name = "abstract" renders to
`interface abstract`, whose text does contain the token `abstract` (coming
from the name, not from the modifier). -/
theorem claim_C1_counterexample :
    (Classifier.mk [] true false .Interface "abstract" none [] [] []).kind =
        ClassifierKind.Interface ∧
      (Classifier.mk [] true false .Interface "abstract" none [] [] []).is_abstract = true ∧
      (Classifier.mk [] true false .Interface "abstract" none [] [] []).render =
        "interface abstract" ∧
      containsTok (Classifier.mk [] true false .Interface "abstract" none [] [] []).render
        "abstract" = true := by
  refine ⟨rfl, rfl, by decide, by decide⟩

/-- C1, amended: for every classifier of kind Interface the rendered output is
identical to that of the same classifier with is_abstract = false — the
abstract modifier is suppressed for interfaces while the stored flag is
unchanged — so no `abstract` token arises from the flag (the output can still
contain `abstract` only where a field's own text does). -/
theorem claim_C1_amended (c : Classifier)
    (h : c.kind = ClassifierKind.Interface) :
    c.render = ({ c with is_abstract := false } : Classifier).render := by
  rw [render_decomp, render_decomp]
  simp [specModifiers, h]

/-- Witness for C1's amended theorem at a concrete interface classifier. -/
theorem claim_C1_witness :
    (Classifier.mk [] true false .Interface "Comparable" none [] [] []).render =
      (Classifier.mk [] false false .Interface "Comparable" none [] [] []).render :=
  claim_C1_amended (Classifier.mk [] true false .Interface "Comparable" none [] [] []) rfl

/-- C2: the rendering is the member-free rendering (which ends at the header)
followed by the member block: nothing when both member lists are empty,
otherwise ` {`, one line per attribute then one line per operation (line break
plus two-space indent plus the member's own rendering, in input order, no
reordering or deduplication), then a line break and `}`. -/
theorem claim_C2_member_block (c : Classifier) :
    c.render = ({ c with attributes := [], operations := [] } : Classifier).render ++
      specMemberBlock c.attributes c.operations := by
  rw [render_decomp, render_decomp]
  simp [specMemberBlock, String.append_assoc]

/-- C3: with the B-tree invariant on `meta` (keys strictly ascending, so list
order is ascending key order), the rendering is the annotation line
`#[k1, k2, …]` — the value renderings comma-space separated, enclosed once in
`#[` `]`, followed by a line break — when `meta` is non-empty, and exactly the
meta-free rendering (no annotation line, no `#[`) when it is empty. -/
theorem claim_C3_meta_line (c : Classifier) (h : MetaSorted c.meta) :
    c.render = specMetaLine c.meta ++ ({ c with meta := [] } : Classifier).render := by
  rw [render_decomp, render_decomp]
  simp [specMetaLine, String.append_assoc]

/-- Witness for C3 at a concrete two-entry sorted meta map. -/
theorem claim_C3_witness :
    MetaSorted [("a", "x"), ("b", "y")] ∧
      (Classifier.mk [("a", "x"), ("b", "y")] false false .Class "C" none [] [] []).render =
        specMetaLine [("a", "x"), ("b", "y")] ++
          (Classifier.mk [] false false .Class "C" none [] [] []).render :=
  ⟨by decide,
    claim_C3_meta_line
      (Classifier.mk [("a", "x"), ("b", "y")] false false .Class "C" none [] [] [])
      (by decide)⟩

/-- C4: the rendering is the annotation line, the modifiers, then — for a
non-empty stereotype list — `«s1, s2, …» ` with the stereotypes verbatim in
input order (no reordering, no deduplication), comma-space separated, wrapped
once in guillemets with one trailing space, or nothing for an empty list,
followed by the rendering stripped of meta, modifiers and stereotypes. -/
theorem claim_C4_stereotypes (c : Classifier) :
    c.render = specMetaLine c.meta ++
      (specModifiers c.is_abstract c.is_final c.kind ++
        (specStereotypes c.stereotypes ++
          ({ c with meta := [], is_abstract := false, is_final := false, stereotypes := [] } : Classifier).render)) := by
  rw [render_decomp, render_decomp]
  simp [specMetaLine, specModifiers, specStereotypes, String.append_assoc]

/-- C5: the modifier segment is exactly `abstract ` when is_abstract holds and
the kind is not Interface, followed by exactly `final ` when is_final holds;
abstract precedes final and each is omitted when its condition fails. -/
theorem claim_C5_modifiers (c : Classifier) :
    c.render = specMetaLine c.meta ++
      ((if c.is_abstract = true ∧ c.kind ≠ ClassifierKind.Interface then "abstract "
          else "") ++
        ((if c.is_final = true then "final " else "") ++
          ({ c with meta := [], is_abstract := false, is_final := false } : Classifier).render)) := by
  rw [render_decomp, render_decomp]
  simp [specMetaLine, specModifiers, String.append_assoc]

/-- C6: the keyword mapping is total on the closed enumeration with the five
fixed images, and every rendering's header is this keyword, a space and the
name (between the decorations and the id/member segments). -/
theorem claim_C6_keyword :
    (ClassifierKind.kind .Class = "class" ∧
      ClassifierKind.kind .DataType = "dataType" ∧
      ClassifierKind.kind .Enumeration = "enumeration" ∧
      ClassifierKind.kind .Interface = "interface" ∧
      ClassifierKind.kind .Primitive = "primitive") ∧
    ∀ c : Classifier, c.render = specMetaLine c.meta ++
      (specModifiers c.is_abstract c.is_final c.kind ++
        (specStereotypes c.stereotypes ++
          ((c.kind.kind ++ " " ++ c.name) ++
            (specId c.id ++ specMemberBlock c.attributes c.operations)))) :=
  ⟨⟨rfl, rfl, rfl, rfl, rfl⟩, render_decomp⟩

/-- C7: the worked example of the spec — kind DataType, name "Point",
id "p1", final, one stereotype, no meta and no members — renders to exactly
`final «ValueObject» dataType Point as p1`, with no trailing separator. -/
theorem claim_C7_example :
    (Classifier.mk [] false true .DataType "Point" (some "p1") ["ValueObject"] [] []).render =
      "final «ValueObject» dataType Point as p1" := by
  decide

/-- C8: the structured kebab-case encoding round-trips: decoding the encoding
of any classifier (malformed or not) reproduces it field for field, where the
kind field carries the kebab-case tokens and default/empty fields are
omitted. -/
theorem claim_C8_roundtrip :
    (ClassifierKind.kebab .Class = "class" ∧
      ClassifierKind.kebab .DataType = "data-type" ∧
      ClassifierKind.kebab .Enumeration = "enumeration" ∧
      ClassifierKind.kebab .Interface = "interface" ∧
      ClassifierKind.kebab .Primitive = "primitive") ∧
    ∀ c : Classifier, decodeClassifier c.encodeField = some c := by
  refine ⟨⟨rfl, rfl, rfl, rfl, rfl⟩, fun c => ?_⟩
  obtain ⟨meta, ab, fin, kind, name, id, st, attrs, ops⟩ := c
  cases ab <;> cases fin <;> cases id <;> cases meta <;> cases st <;>
    cases attrs <;> cases ops <;>
      simp [decodeClassifier, Classifier.encodeField, ofKebab_kebab, Bind.bind,
        Option.bind, Pure.pure]

/-- C9: rendering is total and never fails — for every classifier value,
including malformed ones such as an empty name, the formatter run succeeds and
returns the rendered string. -/
theorem claim_C9_total (c : Classifier) :
    c.fmtResult = Except.ok c.render :=
  Classifier.fmtResult_eq c

theorem containsTok_of_middle (a n b : String) :
    containsTok (a ++ (n ++ b)) n = true := by
  unfold containsTok
  simp only [String.data_append]
  exact containsChars_middle a.data n.data b.data

theorem containsTok_of_middle2 (a b n r : String) :
    containsTok (a ++ (b ++ (n ++ r))) n = true := by
  have h := containsTok_of_middle (a ++ b) n r
  simpa [String.append_assoc] using h

/-- C10: empty-string stereotype elements are not filtered: any classifier
whose stereotype list is exactly one empty string renders with the empty
guillemet pair `«» ` in its output. -/
theorem claim_C10_empty_stereotype (c : Classifier)
    (h : c.stereotypes = [""]) :
    containsTok c.render "«» " = true := by
  have hd := render_decomp c
  rw [h] at hd
  have hst : specStereotypes [""] = "«» " := by decide
  rw [hst] at hd
  rw [hd]
  exact containsTok_of_middle2 _ _ _ _

/-- Witness for C10 at a concrete classifier with one empty stereotype. -/
theorem claim_C10_witness :
    containsTok (Classifier.mk [] false false .Class "C" none [""] [] []).render
      "«» " = true :=
  claim_C10_empty_stereotype (Classifier.mk [] false false .Class "C" none [""] [] []) rfl

end Plum
